import Mathlib

set_option maxRecDepth 1000000

/-!
Verification of oauth2client/xsrfutil.py (XSRF token generation and validation).

Modelling conventions (shallow embedding):

- Python byte strings are modelled as List Nat with every element < 256.
  The module concatenates str values and encodes them with the fixed
  UTF-8 encoding; at the byte level this is list concatenation, so the
  .format(...).encode(ENCODING) steps become appends of the byte lists
  that the inputs denote.  The embedding follows the Python 2 execution
  paths of the module, the paths under which the module is functional:
  hmac.new with no digestmod defaults to MD5, the format call inserts the
  raw digest bytes, and the encode fallback in generate_token yields the
  raw envelope bytes either way, so the token is always
  urlsafe_b64encode(digest + DELIMITER + str(when)).
- The clock (int(time.time())) is modelled by an explicit integer
  parameter named now, passed to each call.  validate_token passes its
  own clock to the generate_token call it performs internally.
- In validate_token the two try/except decode paths (the utf-8 text path
  and the byte path) compute the same integer whenever either succeeds,
  and every decode or parse failure is caught and collapsed to the byte
  path or to False; the embedding therefore uses the single byte-level
  path, made total with Option.
- base64.urlsafe_b64decode is modelled after the CPython behaviour the
  module relies on: translate the urlsafe alphabet to the standard one,
  discard characters outside the alphabet, then decode strict quads with
  trailing = padding; any leftover or misplaced padding is an error
  (raised as TypeError or ValueError in Python, both caught by
  validate_token), modelled as none.
- int(s) is modelled by pyInt: strip ASCII whitespace, optional sign,
  then at least one decimal digit and nothing else.
-/

/-! ## Decimal digits: str(when) and int(s) -/

/-- Decimal digit characters of n, most significant first, with fuel.
Empty for n = 0; the wrapper below handles that case. -/
def natDigitsFuel : Nat → Nat → List Nat
  | 0, _ => []
  | fuel+1, n => if n = 0 then [] else natDigitsFuel fuel (n / 10) ++ [48 + n % 10]

/-- Decimal digit characters of a natural number, as byte values. -/
def natDigits (n : Nat) : List Nat :=
  if n = 0 then [48] else natDigitsFuel n n

/-- Byte string produced by the Python str() of an integer. -/
def decStr (i : Int) : List Nat :=
  if i < 0 then 45 :: natDigits i.natAbs else natDigits i.toNat

/-- Decimal digit test on byte values. -/
def isDigitByte (c : Nat) : Bool := 48 ≤ c && c ≤ 57

/-- Value of a digit string read left to right. -/
def digitsVal (s : List Nat) : Nat := s.foldl (fun a c => a * 10 + (c - 48)) 0

/-- Parse a nonempty all-digit byte string. -/
def pyDigits (s : List Nat) : Option Nat :=
  if s ≠ [] ∧ s.all isDigitByte then some (digitsVal s) else none

/-- ASCII whitespace bytes stripped by the Python int() conversion. -/
def isPyWS (c : Nat) : Bool := c = 32 || c = 9 || c = 10 || c = 13 || c = 11 || c = 12

/-- Strip leading and trailing ASCII whitespace. -/
def stripWS (s : List Nat) : List Nat :=
  (((s.dropWhile isPyWS).reverse.dropWhile isPyWS)).reverse

/-- The Python int(s) conversion on a byte string: optional surrounding
whitespace, optional sign, at least one decimal digit. Failure is none
(Python raises ValueError, caught by validate_token). -/
def pyInt (s : List Nat) : Option Int :=
  let t := stripWS s
  if t = [] then none
  else if t.headD 0 = 43 then (fun n => (n : Int)) <$> pyDigits t.tail
  else if t.headD 0 = 45 then (fun n => -(n : Int)) <$> pyDigits t.tail
  else (fun n => (n : Int)) <$> pyDigits t

/-! ## The Python split and the final field -/

/-- The Python s.split(d) on byte strings, for a one-byte separator d.
The result is always nonempty; splitting the empty string gives one
empty field. -/
def pySplit (d : Nat) : List Nat → List (List Nat)
  | [] => [[]]
  | c :: rest =>
    match pySplit d rest with
    | [] => [[]]
    | f :: fs => if c = d then [] :: f :: fs else (c :: f) :: fs

/-- The final field of s.split(d), that is split(d)[-1]. -/
def lastField (d : Nat) (s : List Nat) : List Nat := (pySplit d s).getLastD []

/-! ## base64.urlsafe_b64encode / urlsafe_b64decode -/

/-- Standard base64 alphabet character for a 6-bit value, with the
urlsafe substitutions minus (62) and underscore (63). -/
def b64UChar (v : Nat) : Nat :=
  if v < 26 then 65 + v
  else if v < 52 then 97 + (v - 26)
  else if v < 62 then 48 + (v - 52)
  else if v = 62 then 45
  else 95

/-- base64.urlsafe_b64encode on bytes: big-endian 3-byte groups to
4 characters, with = (61) padding for a short final group. -/
def urlsafeB64Encode : List Nat → List Nat
  | [] => []
  | [a] => [b64UChar (a / 4), b64UChar (a % 4 * 16), 61, 61]
  | [a, b] => [b64UChar (a / 4), b64UChar (a % 4 * 16 + b / 16), b64UChar (b % 16 * 4), 61]
  | a :: b :: c :: rest =>
    b64UChar (a / 4) :: b64UChar (a % 4 * 16 + b / 16) ::
    b64UChar (b % 16 * 4 + c / 64) :: b64UChar (c % 64) :: urlsafeB64Encode rest

/-- Translate the urlsafe alphabet to the standard one, as
urlsafe_b64decode does before decoding. -/
def b64Translate (c : Nat) : Nat := if c = 45 then 43 else if c = 95 then 47 else c

/-- Six-bit value of a standard-alphabet base64 character. -/
def b64Val (c : Nat) : Option Nat :=
  if 65 ≤ c ∧ c ≤ 90 then some (c - 65)
  else if 97 ≤ c ∧ c ≤ 122 then some (c - 97 + 26)
  else if 48 ≤ c ∧ c ≤ 57 then some (c - 48 + 52)
  else if c = 43 then some 62
  else if c = 47 then some 63
  else none

/-- Characters kept by the decoder: the standard alphabet and padding. -/
def b64Keep (c : Nat) : Bool := (b64Val c).isSome || c = 61

/-- Decode filtered standard-alphabet quads; = (61) padding is accepted
only at the end of the input, any other shape is an error. -/
def b64DecodeQuads : List Nat → Option (List Nat)
  | [] => some []
  | c1 :: c2 :: c3 :: c4 :: rest =>
    match b64Val c1, b64Val c2 with
    | some v1, some v2 =>
      if c3 = 61 then
        if c4 = 61 ∧ rest = [] then some [v1 * 4 + v2 / 16] else none
      else
        match b64Val c3 with
        | some v3 =>
          if c4 = 61 then
            if rest = [] then some [v1 * 4 + v2 / 16, v2 % 16 * 16 + v3 / 4] else none
          else
            match b64Val c4 with
            | some v4 =>
              match b64DecodeQuads rest with
              | some tail => some ((v1 * 4 + v2 / 16) :: (v2 % 16 * 16 + v3 / 4) ::
                                   (v3 % 4 * 64 + v4) :: tail)
              | none => none
            | none => none
        | none => none
    | _, _ => none
  | _ => none

/-- base64.urlsafe_b64decode, total with Option: translate, discard
characters outside the alphabet, decode quads. -/
def urlsafeB64Decode (s : List Nat) : Option (List Nat) :=
  b64DecodeQuads ((s.map b64Translate).filter b64Keep)

/-! ## MD5 and HMAC (the hmac.new default digest used by the module) -/

/-- MD5 round constants, floor(2^32 * abs(sin(i+1))). -/
def md5K : List Nat :=
  [3614090360, 3905402710, 606105819, 3250441966, 4118548399, 1200080426,
   2821735955, 4249261313, 1770035416, 2336552879, 4294925233, 2304563134,
   1804603682, 4254626195, 2792965006, 1236535329, 4129170786, 3225465664,
   643717713, 3921069994, 3593408605, 38016083, 3634488961, 3889429448,
   568446438, 3275163606, 4107603335, 1163531501, 2850285829, 4243563512,
   1735328473, 2368359562, 4294588738, 2272392833, 1839030562, 4259657740,
   2763975236, 1272893353, 4139469664, 3200236656, 681279174, 3936430074,
   3572445317, 76029189, 3654602809, 3873151461, 530742520, 3299628645,
   4096336452, 1126891415, 2878612391, 4237533241, 1700485571, 2399980690,
   4293915773, 2240044497, 1873313359, 4264355552, 2734768916, 1309151649,
   4149444226, 3174756917, 718787259, 3951481745]

/-- MD5 per-round left-rotation amounts. -/
def md5S : List Nat :=
  [7, 12, 17, 22, 7, 12, 17, 22, 7, 12, 17, 22, 7, 12, 17, 22,
   5, 9, 14, 20, 5, 9, 14, 20, 5, 9, 14, 20, 5, 9, 14, 20,
   4, 11, 16, 23, 4, 11, 16, 23, 4, 11, 16, 23, 4, 11, 16, 23,
   6, 10, 15, 21, 6, 10, 15, 21, 6, 10, 15, 21, 6, 10, 15, 21]

/-- Rotate a 32-bit value left by s bits. -/
def rotl32 (x s : Nat) : Nat := ((x <<< s) ||| (x >>> (32 - s))) % 4294967296

/-- Little-endian bytes of n, k bytes long. -/
def leBytes : Nat → Nat → List Nat
  | 0, _ => []
  | k+1, n => n % 256 :: leBytes k (n / 256)

/-- 16 little-endian 32-bit words of a 64-byte block. -/
def leWords : List Nat → List Nat
  | b0 :: b1 :: b2 :: b3 :: rest =>
    (b0 + b1 * 256 + b2 * 65536 + b3 * 16777216) :: leWords rest
  | _ => []

/-- One MD5 round on the state (a, b, c, d) with message words m. -/
def md5Round (m : List Nat) (st : Nat × Nat × Nat × Nat) (i : Nat) : Nat × Nat × Nat × Nat :=
  let a := st.1; let b := st.2.1; let c := st.2.2.1; let d := st.2.2.2
  let f :=
    if i < 16 then (b &&& c) ||| ((4294967295 ^^^ b) &&& d)
    else if i < 32 then (d &&& b) ||| ((4294967295 ^^^ d) &&& c)
    else if i < 48 then b ^^^ c ^^^ d
    else c ^^^ (b ||| (4294967295 ^^^ d))
  let g :=
    if i < 16 then i
    else if i < 32 then (5 * i + 1) % 16
    else if i < 48 then (3 * i + 5) % 16
    else (7 * i) % 16
  let tmp := (f + a + md5K.getD i 0 + m.getD g 0) % 4294967296
  (d, (b + rotl32 tmp (md5S.getD i 0)) % 4294967296, b, c)

/-- MD5 compression of one 64-byte block into the running state. -/
def md5Compress (st : Nat × Nat × Nat × Nat) (block : List Nat) : Nat × Nat × Nat × Nat :=
  let m := leWords block
  let r := (List.range 64).foldl (md5Round m) st
  ((st.1 + r.1) % 4294967296, (st.2.1 + r.2.1) % 4294967296,
   (st.2.2.1 + r.2.2.1) % 4294967296, (st.2.2.2 + r.2.2.2) % 4294967296)

/-- MD5 padding: a 128 byte, zeros to 56 mod 64, 8-byte little-endian bit length. -/
def md5Pad (msg : List Nat) : List Nat :=
  msg ++ 128 :: List.replicate ((119 - msg.length % 64) % 64) 0
      ++ leBytes 8 ((8 * msg.length) % 18446744073709551616)

/-- Fold the compression over consecutive 64-byte blocks; the fuel is an
upper bound on the block count so the recursion is structural. -/
def md5Loop : Nat → List Nat → Nat × Nat × Nat × Nat → Nat × Nat × Nat × Nat
  | 0, _, st => st
  | fuel+1, msg, st =>
    match msg with
    | [] => st
    | _ => md5Loop fuel (msg.drop 64) (md5Compress st (msg.take 64))

/-- MD5 digest of a byte string: 16 bytes. -/
def md5 (msg : List Nat) : List Nat :=
  let p := md5Pad msg
  let st := md5Loop p.length p (1732584193, 4023233417, 2562383102, 271733878)
  leBytes 4 st.1 ++ leBytes 4 st.2.1 ++ leBytes 4 st.2.2.1 ++ leBytes 4 st.2.2.2

/-- HMAC-MD5. hmac.new(k) in Python 2 defaults to MD5 with an empty
message; generate_token calls it with the canonical message as the key. -/
def hmacMD5 (key msg : List Nat) : List Nat :=
  let k0 := if 64 < key.length then md5 key else key
  let kp := k0 ++ List.replicate (64 - k0.length) 0
  md5 ((kp.map (fun b => b ^^^ 92)) ++ md5 ((kp.map (fun b => b ^^^ 54)) ++ msg))

/-- The digest computed by hmac.new(decoded_key).digest(). -/
def hmacDigest (decoded_key : List Nat) : List Nat := hmacMD5 decoded_key []

/-! ## oauth2client.xsrfutil -/

/-- Delimiter character (":", byte 58). -/
def DELIMITER : Nat := 58

/-- 1 hour in seconds. -/
def DEFAULT_TIMEOUT_SECS : Int := 1 * 60 * 60

/-- The effective timestamp of the line
when = when or int(time.time()):
a Python or returns the right operand when the left is falsy, and both
None and 0 are falsy, so an absent or zero when is replaced by the
clock value. -/
def effWhen (when : Option Int) (now : Int) : Int :=
  match when with
  | none => now
  | some v => if v = 0 then now else v

/-- The canonical message decoded_key, the byte string
key + user_id + ":" + action_id + ":" + str(when). -/
def decodedKey (key user_id action_id : List Nat) (w : Int) : List Nat :=
  key ++ user_id ++ [DELIMITER] ++ action_id ++ [DELIMITER] ++ decStr w

/-- generate_token(key, user_id, action_id, when), with the clock passed
explicitly as now.  The token is
urlsafe_b64encode(digest + ":" + str(when)). -/
def generate_token (key user_id action_id : List Nat) (when : Option Int) (now : Int) :
    List Nat :=
  let w := effWhen when now
  let decoded_token := hmacDigest (decodedKey key user_id action_id w) ++ [DELIMITER] ++ decStr w
  urlsafeB64Encode decoded_token

/-- The timestamp recovered from a presented token:
int(urlsafe_b64decode(token).split(DELIMITER)[-1]), with every decode or
parse failure collapsed to none (the except branches of validate_token). -/
def extractTokenTime (token : List Nat) : Option Int :=
  match urlsafeB64Decode token with
  | none => none
  | some decoded => pyInt (lastField DELIMITER decoded)

/-- The accumulator of the constant time comparison loop:
for x, y in zip(token, expected_token): different |= x ^ y. -/
def ctDifferent (token expected : List Nat) : Nat :=
  (token.zip expected).foldl (fun acc p => acc ||| (p.1 ^^^ p.2)) 0

/-- validate_token(key, token, user_id, action_id, current_time), with
the clock passed explicitly as now; a missing current_time falls back to
the clock, and the internal generate_token call also reads the clock
(which matters when the embedded timestamp is 0, a falsy value). -/
def validate_token (key token user_id action_id : List Nat)
    (current_time : Option Int) (now : Int) : Bool :=
  if token = [] then false
  else
    match extractTokenTime token with
    | none => false
    | some token_time =>
      let ct : Int := match current_time with | none => now | some c => c
      if DEFAULT_TIMEOUT_SECS < ct - token_time then false
      else
        let expected := generate_token key user_id action_id (some token_time) now
        if token.length ≠ expected.length then false
        else if ctDifferent token expected ≠ 0 then false
        else true

/-! ## Lemmas: decimal digits and pyInt -/

theorem natDigitsFuel_mem {fuel n : Nat} : ∀ c ∈ natDigitsFuel fuel n, 48 ≤ c ∧ c ≤ 57 := by
  induction fuel generalizing n with
  | zero => simp [natDigitsFuel]
  | succ fuel ih =>
    intro c hc
    simp only [natDigitsFuel] at hc
    by_cases h0 : n = 0
    · simp [h0] at hc
    · rw [if_neg h0] at hc
      rcases List.mem_append.mp hc with h | h
      · exact ih c h
      · simp only [List.mem_singleton] at h
        omega

theorem natDigits_mem {n : Nat} : ∀ c ∈ natDigits n, 48 ≤ c ∧ c ≤ 57 := by
  unfold natDigits
  split
  · intro c hc
    simp only [List.mem_singleton] at hc
    omega
  · exact natDigitsFuel_mem

theorem natDigits_ne_nil (n : Nat) : natDigits n ≠ [] := by
  unfold natDigits
  split
  · simp
  · rename_i h
    obtain ⟨m, rfl⟩ := Nat.exists_eq_succ_of_ne_zero h
    simp [natDigitsFuel, h]

theorem digitsVal_append (xs : List Nat) (c : Nat) :
    digitsVal (xs ++ [c]) = digitsVal xs * 10 + (c - 48) := by
  simp [digitsVal, List.foldl_append]

theorem natDigitsFuel_val {fuel n : Nat} (h : n < 10 ^ fuel) :
    digitsVal (natDigitsFuel fuel n) = n := by
  induction fuel generalizing n with
  | zero =>
    have : n = 0 := by simpa using h
    simp [this, natDigitsFuel, digitsVal]
  | succ fuel ih =>
    by_cases h0 : n = 0
    · simp [natDigitsFuel, h0, digitsVal]
    · have hdiv : n / 10 < 10 ^ fuel := by
        rw [Nat.div_lt_iff_lt_mul (by norm_num : (0:Nat) < 10)]
        calc n < 10 ^ (fuel + 1) := h
        _ = 10 ^ fuel * 10 := by rw [pow_succ]
      simp only [natDigitsFuel, if_neg h0]
      rw [digitsVal_append, ih hdiv]
      omega

theorem digitsVal_natDigits (n : Nat) : digitsVal (natDigits n) = n := by
  unfold natDigits
  split
  · rename_i h
    simp [h, digitsVal]
  · exact natDigitsFuel_val (Nat.lt_pow_self (by norm_num) n)

theorem dropWhile_false {p : Nat → Bool} {l : List Nat} (h : ∀ c ∈ l, p c = false) :
    l.dropWhile p = l := by
  cases l with
  | nil => rfl
  | cons c cs => rw [List.dropWhile_cons, h c (by simp)]; simp

theorem stripWS_eq_self {s : List Nat} (h : ∀ c ∈ s, isPyWS c = false) : stripWS s = s := by
  unfold stripWS
  rw [dropWhile_false h,
      dropWhile_false (fun c hc => h c (List.mem_reverse.mp hc)), List.reverse_reverse]

theorem digit_not_ws {c : Nat} (h1 : 48 ≤ c) (h2 : c ≤ 57) : isPyWS c = false := by
  simp only [isPyWS]
  simp only [Bool.or_eq_false_iff, decide_eq_false_iff_not]
  omega

theorem pyDigits_natDigits (n : Nat) : pyDigits (natDigits n) = some n := by
  unfold pyDigits
  rw [if_pos, digitsVal_natDigits]
  refine ⟨natDigits_ne_nil n, ?_⟩
  rw [List.all_eq_true]
  intro c hc
  have := natDigits_mem c hc
  simp only [isDigitByte, Bool.and_eq_true, decide_eq_true_iff]
  omega

theorem pyInt_decStr (i : Int) : pyInt (decStr i) = some i := by
  unfold decStr
  split
  · rename_i hneg
    have hstrip : stripWS (45 :: natDigits i.natAbs) = 45 :: natDigits i.natAbs := by
      refine stripWS_eq_self ?_
      intro c hc
      rcases List.mem_cons.mp hc with rfl | hmem
      · decide
      · have := natDigits_mem c hmem
        exact digit_not_ws this.1 this.2
    simp only [pyInt, hstrip]
    rw [if_neg (by simp)]
    simp only [List.headD_cons, List.tail_cons]
    rw [if_neg (by decide), if_pos trivial, pyDigits_natDigits]
    show some (-(i.natAbs : Int)) = some i
    congr 1
    omega
  · rename_i hpos
    have hd := natDigits_mem (n := i.toNat)
    obtain ⟨c, ds, hcons⟩ := List.exists_cons_of_ne_nil (natDigits_ne_nil i.toNat)
    have hc48 : 48 ≤ c ∧ c ≤ 57 := hd c (by rw [hcons]; simp)
    have hstrip : stripWS (natDigits i.toNat) = natDigits i.toNat := by
      refine stripWS_eq_self ?_
      intro x hx
      have := natDigits_mem x hx
      exact digit_not_ws this.1 this.2
    simp only [pyInt, hstrip]
    rw [hcons]
    rw [if_neg (by simp)]
    simp only [List.headD_cons, List.tail_cons]
    rw [if_neg (by omega), if_neg (by omega), ← hcons, pyDigits_natDigits]
    show some ((i.toNat : Int)) = some i
    congr 1
    omega

/-! ## Lemmas: pySplit and lastField -/

theorem pySplit_ne_nil (d : Nat) (l : List Nat) : pySplit d l ≠ [] := by
  cases l with
  | nil => simp [pySplit]
  | cons c rest =>
    simp only [pySplit]
    rcases pySplit d rest with _ | ⟨f, fs⟩
    · simp
    · by_cases hc : c = d <;> simp [hc]

theorem pySplit_cons {d : Nat} (c : Nat) {rest : List Nat} {f : List Nat} {fs : List (List Nat)}
    (h : pySplit d rest = f :: fs) :
    pySplit d (c :: rest) = if c = d then [] :: f :: fs else (c :: f) :: fs := by
  simp only [pySplit]
  rw [h]

theorem pySplit_no_delim {d : Nat} {l : List Nat} (h : d ∉ l) : pySplit d l = [l] := by
  induction l with
  | nil => rfl
  | cons c rest ih =>
    have hc : c ≠ d := fun hcd => h (by simp [hcd])
    have hrest : d ∉ rest := fun hd => h (by simp [hd])
    rw [pySplit_cons c (ih hrest), if_neg hc]

theorem pySplit_len_two {d : Nat} {l : List Nat} (h : d ∈ l) : 2 ≤ (pySplit d l).length := by
  induction l with
  | nil => simp at h
  | cons c rest ih =>
    rcases hr : pySplit d rest with _ | ⟨f, fs⟩
    · exact absurd hr (pySplit_ne_nil d rest)
    · rw [pySplit_cons c hr]
      by_cases hc : c = d
      · rw [if_pos hc]; simp
      · rw [if_neg hc]
        rcases List.mem_cons.mp h with rfl | hmem
        · exact absurd rfl hc
        · have := ih hmem
          rw [hr] at this
          simpa using this

theorem getLastD_cons_cons {α : Type} (a b : α) (l : List α) (x : α) :
    (a :: b :: l).getLastD x = (b :: l).getLastD a := rfl

theorem getLastD_default_irrel {α : Type} (a : α) (l : List α) (x y : α) :
    (a :: l).getLastD x = (a :: l).getLastD y := by
  induction l generalizing a with
  | nil => rfl
  | cons b bs ih => rw [getLastD_cons_cons, getLastD_cons_cons]

theorem lastField_append {d : Nat} {ys : List Nat} (h : d ∉ ys) :
    ∀ xs, lastField d (xs ++ d :: ys) = ys := by
  intro xs
  induction xs with
  | nil =>
    rw [List.nil_append, lastField, pySplit_cons d (pySplit_no_delim h), if_pos rfl]
    rfl
  | cons x xs ih =>
    have hlen := pySplit_len_two (l := xs ++ d :: ys) (d := d) (by simp)
    unfold lastField at ih ⊢
    rcases hr : pySplit d (xs ++ d :: ys) with _ | ⟨f, fs⟩
    · exact absurd hr (pySplit_ne_nil d _)
    · rcases fs with _ | ⟨g, gs⟩
      · rw [hr] at hlen; simp at hlen
      · rw [hr] at ih
        rw [List.cons_append, pySplit_cons x hr]
        by_cases hx : x = d
        · rw [if_pos hx]
          rw [getLastD_cons_cons]
          exact ih
        · rw [if_neg hx]
          rw [getLastD_cons_cons, ← getLastD_default_irrel g gs f]
          rw [getLastD_cons_cons] at ih
          exact ih

/-! ## Lemmas: base64 round trip -/

theorem b64_char_ok : ∀ v < 64, b64Val (b64Translate (b64UChar v)) = some v ∧
    b64Keep (b64Translate (b64UChar v)) = true := by decide

theorem b64Translate_61 : b64Translate 61 = 61 := rfl

theorem b64Keep_61 : b64Keep 61 = true := rfl

theorem b64Val_61 : b64Val 61 = none := rfl

theorem pipeline_cons {x : Nat} (xs : List Nat) (hk : b64Keep (b64Translate x) = true) :
    ((x :: xs).map b64Translate).filter b64Keep =
      b64Translate x :: (xs.map b64Translate).filter b64Keep := by
  simp [List.filter_cons, hk]

theorem b64DecodeQuads_pad2 {c1 c2 : Nat} {v1 v2 : Nat}
    (h1 : b64Val c1 = some v1) (h2 : b64Val c2 = some v2) :
    b64DecodeQuads [c1, c2, 61, 61] = some [v1 * 4 + v2 / 16] := by
  simp [b64DecodeQuads, h1, h2]

theorem b64DecodeQuads_pad1 {c1 c2 c3 : Nat} {v1 v2 v3 : Nat}
    (h1 : b64Val c1 = some v1) (h2 : b64Val c2 = some v2) (h3 : b64Val c3 = some v3) :
    b64DecodeQuads [c1, c2, c3, 61] = some [v1 * 4 + v2 / 16, v2 % 16 * 16 + v3 / 4] := by
  have hc3 : c3 ≠ 61 := by intro h; rw [h, b64Val_61] at h3; exact absurd h3 (by simp)
  simp [b64DecodeQuads, h1, h2, h3, hc3]

theorem b64DecodeQuads_step {c1 c2 c3 c4 : Nat} {v1 v2 v3 v4 : Nat} (tail : List Nat)
    (h1 : b64Val c1 = some v1) (h2 : b64Val c2 = some v2)
    (h3 : b64Val c3 = some v3) (h4 : b64Val c4 = some v4) :
    b64DecodeQuads (c1 :: c2 :: c3 :: c4 :: tail) =
      Option.map
        (fun t => (v1 * 4 + v2 / 16) :: (v2 % 16 * 16 + v3 / 4) :: (v3 % 4 * 64 + v4) :: t)
        (b64DecodeQuads tail) := by
  have hc3 : c3 ≠ 61 := by intro h; rw [h, b64Val_61] at h3; exact absurd h3 (by simp)
  have hc4 : c4 ≠ 61 := by intro h; rw [h, b64Val_61] at h4; exact absurd h4 (by simp)
  simp only [b64DecodeQuads, h1, h2, h3, h4, hc3, hc4, if_false]
  cases b64DecodeQuads tail <;> simp

theorem b64_pipeline_roundtrip :
    ∀ l : List Nat, (∀ b ∈ l, b < 256) →
      b64DecodeQuads (((urlsafeB64Encode l).map b64Translate).filter b64Keep) = some l
  | [], _ => rfl
  | [a], h => by
    have ha : a < 256 := h a (by simp)
    have c1 := b64_char_ok (a / 4) (by omega)
    have c2 := b64_char_ok (a % 4 * 16) (by omega)
    show b64DecodeQuads
        (([b64UChar (a / 4), b64UChar (a % 4 * 16), 61, 61].map b64Translate).filter b64Keep) =
      some [a]
    rw [pipeline_cons _ c1.2, pipeline_cons _ c2.2, pipeline_cons _ (by rw [b64Translate_61]; exact b64Keep_61),
        pipeline_cons _ (by rw [b64Translate_61]; exact b64Keep_61)]
    simp only [List.map_nil, List.filter_nil, b64Translate_61]
    rw [b64DecodeQuads_pad2 c1.1 c2.1]
    congr 1
    simp only [List.cons.injEq, and_true]
    omega
  | [a, b], h => by
    have ha : a < 256 := h a (by simp)
    have hb : b < 256 := h b (by simp)
    have c1 := b64_char_ok (a / 4) (by omega)
    have c2 := b64_char_ok (a % 4 * 16 + b / 16) (by omega)
    have c3 := b64_char_ok (b % 16 * 4) (by omega)
    show b64DecodeQuads
        (([b64UChar (a / 4), b64UChar (a % 4 * 16 + b / 16), b64UChar (b % 16 * 4), 61].map
            b64Translate).filter b64Keep) = some [a, b]
    rw [pipeline_cons _ c1.2, pipeline_cons _ c2.2, pipeline_cons _ c3.2,
        pipeline_cons _ (by rw [b64Translate_61]; exact b64Keep_61)]
    simp only [List.map_nil, List.filter_nil, b64Translate_61]
    rw [b64DecodeQuads_pad1 c1.1 c2.1 c3.1]
    congr 1
    simp only [List.cons.injEq, and_true]
    constructor <;> omega
  | a :: b :: c :: rest, h => by
    have ha : a < 256 := h a (by simp)
    have hb : b < 256 := h b (by simp)
    have hc : c < 256 := h c (by simp)
    have ih := b64_pipeline_roundtrip rest (fun x hx => h x (by simp [hx]))
    have c1 := b64_char_ok (a / 4) (by omega)
    have c2 := b64_char_ok (a % 4 * 16 + b / 16) (by omega)
    have c3 := b64_char_ok (b % 16 * 4 + c / 64) (by omega)
    have c4 := b64_char_ok (c % 64) (by omega)
    show b64DecodeQuads
        (((b64UChar (a / 4) :: b64UChar (a % 4 * 16 + b / 16) ::
           b64UChar (b % 16 * 4 + c / 64) :: b64UChar (c % 64) :: urlsafeB64Encode rest).map
            b64Translate).filter b64Keep) = some (a :: b :: c :: rest)
    rw [pipeline_cons _ c1.2, pipeline_cons _ c2.2, pipeline_cons _ c3.2, pipeline_cons _ c4.2]
    rw [b64DecodeQuads_step _ c1.1 c2.1 c3.1 c4.1, ih]
    simp only [Option.map_some']
    congr 1
    simp only [List.cons.injEq, and_true]
    omega

theorem urlsafeB64_roundtrip {l : List Nat} (h : ∀ b ∈ l, b < 256) :
    urlsafeB64Decode (urlsafeB64Encode l) = some l :=
  b64_pipeline_roundtrip l h

theorem urlsafeB64Encode_inj {xs ys : List Nat} (hx : ∀ b ∈ xs, b < 256)
    (hy : ∀ b ∈ ys, b < 256) (h : urlsafeB64Encode xs = urlsafeB64Encode ys) : xs = ys := by
  have h1 := urlsafeB64_roundtrip hx
  have h2 := urlsafeB64_roundtrip hy
  rw [h, h2] at h1
  exact (Option.some.injEq _ _ ▸ h1).symm

theorem urlsafeB64Encode_ne_nil {l : List Nat} (h : l ≠ []) : urlsafeB64Encode l ≠ [] := by
  rcases l with _ | ⟨a, _ | ⟨b, _ | ⟨c, rest⟩⟩⟩
  · exact absurd rfl h
  · simp [urlsafeB64Encode]
  · simp [urlsafeB64Encode]
  · simp [urlsafeB64Encode]

/-! ## Lemmas: byte bounds -/

theorem leBytes_lt {k n : Nat} : ∀ b ∈ leBytes k n, b < 256 := by
  induction k generalizing n with
  | zero => simp [leBytes]
  | succ k ih =>
    intro b hb
    simp only [leBytes, List.mem_cons] at hb
    rcases hb with rfl | hb
    · omega
    · exact ih b hb

theorem md5_lt (msg : List Nat) : ∀ b ∈ md5 msg, b < 256 := by
  intro b hb
  simp only [md5, List.mem_append] at hb
  rcases hb with ((h | h) | h) | h <;> exact leBytes_lt b h

theorem hmacMD5_lt (key msg : List Nat) : ∀ b ∈ hmacMD5 key msg, b < 256 := by
  intro b hb
  simp only [hmacMD5] at hb
  exact md5_lt _ b hb

theorem hmacDigest_lt (dk : List Nat) : ∀ b ∈ hmacDigest dk, b < 256 :=
  hmacMD5_lt dk []

theorem decStr_lt (i : Int) : ∀ b ∈ decStr i, b < 256 := by
  intro b hb
  unfold decStr at hb
  split at hb
  · rcases List.mem_cons.mp hb with rfl | h
    · omega
    · have := natDigits_mem b h; omega
  · have := natDigits_mem b hb; omega

theorem decStr_no_delim (i : Int) : DELIMITER ∉ decStr i := by
  intro h
  unfold decStr at h
  split at h
  · rcases List.mem_cons.mp h with h58 | h58
    · simp [DELIMITER] at h58
    · have := natDigits_mem _ h58
      simp only [DELIMITER] at this
      omega
  · have := natDigits_mem _ h
    simp only [DELIMITER] at this
    omega

/-! ## Lemmas: extracting the embedded timestamp -/

theorem extract_envelope {ds : List Nat} (hds : ∀ b ∈ ds, b < 256) (w : Int) :
    extractTokenTime (urlsafeB64Encode (ds ++ [DELIMITER] ++ decStr w)) = some w := by
  have hall : ∀ b ∈ ds ++ [DELIMITER] ++ decStr w, b < 256 := by
    intro b hb
    simp only [List.append_assoc, List.mem_append, List.mem_singleton] at hb
    rcases hb with h | rfl | h
    · exact hds b h
    · simp [DELIMITER]
    · exact decStr_lt w b h
  unfold extractTokenTime
  rw [show urlsafeB64Decode (urlsafeB64Encode (ds ++ [DELIMITER] ++ decStr w)) =
        some (ds ++ [DELIMITER] ++ decStr w) from urlsafeB64_roundtrip hall]
  rw [show ds ++ [DELIMITER] ++ decStr w = ds ++ DELIMITER :: decStr w by simp]
  show pyInt (lastField DELIMITER (ds ++ DELIMITER :: decStr w)) = some w
  rw [lastField_append (decStr_no_delim w) ds]
  exact pyInt_decStr w

theorem generate_token_eq (key user_id action_id : List Nat) (when : Option Int) (now : Int) :
    generate_token key user_id action_id when now =
      urlsafeB64Encode (hmacDigest (decodedKey key user_id action_id (effWhen when now))
        ++ [DELIMITER] ++ decStr (effWhen when now)) := rfl

theorem extract_generate (key user_id action_id : List Nat) (when : Option Int) (now : Int) :
    extractTokenTime (generate_token key user_id action_id when now) =
      some (effWhen when now) := by
  rw [generate_token_eq]
  exact extract_envelope (hmacDigest_lt _) _

theorem generate_token_ne_nil (key user_id action_id : List Nat) (when : Option Int)
    (now : Int) : generate_token key user_id action_id when now ≠ [] := by
  rw [generate_token_eq]
  exact urlsafeB64Encode_ne_nil (by simp)

theorem generate_token_now_irrel (key user_id action_id : List Nat) {w : Int}
    (hw : w ≠ 0) (now1 now2 : Int) :
    generate_token key user_id action_id (some w) now1 =
      generate_token key user_id action_id (some w) now2 := by
  rw [generate_token_eq, generate_token_eq]
  simp [effWhen, hw]

theorem effWhen_some {w : Int} (hw : w ≠ 0) (now : Int) : effWhen (some w) now = w := by
  simp [effWhen, hw]

/-! ## Lemmas: the constant time comparison -/

theorem lor_eq_zero {a b : Nat} : a ||| b = 0 ↔ a = 0 ∧ b = 0 := by
  constructor
  · intro h
    have hbits : ∀ i, (a ||| b).testBit i = false := by
      intro i; rw [h]; exact Nat.zero_testBit i
    constructor
    · refine Nat.zero_of_testBit_eq_false fun i => ?_
      have := hbits i
      rw [Nat.testBit_lor] at this
      exact (Bool.or_eq_false_iff.mp this).1
    · refine Nat.zero_of_testBit_eq_false fun i => ?_
      have := hbits i
      rw [Nat.testBit_lor] at this
      exact (Bool.or_eq_false_iff.mp this).2
  · rintro ⟨rfl, rfl⟩; rfl

theorem fold_or_xor_eq_zero :
    ∀ (ps : List (Nat × Nat)) (acc : Nat),
      (ps.foldl (fun acc p => acc ||| (p.1 ^^^ p.2)) acc = 0) ↔
        (acc = 0 ∧ ∀ p ∈ ps, p.1 = p.2) := by
  intro ps
  induction ps with
  | nil => intro acc; simp
  | cons p ps ih =>
    intro acc
    simp only [List.foldl_cons, List.mem_cons]
    rw [ih, lor_eq_zero]
    constructor
    · rintro ⟨⟨ha, hx⟩, hall⟩
      refine ⟨ha, fun q hq => ?_⟩
      rcases hq with rfl | hq
      · exact Nat.xor_eq_zero.mp hx
      · exact hall q hq
    · rintro ⟨ha, hall⟩
      exact ⟨⟨ha, Nat.xor_eq_zero.mpr (hall p (Or.inl rfl))⟩, fun q hq => hall q (Or.inr hq)⟩

theorem zip_forall_eq : ∀ {xs ys : List Nat}, xs.length = ys.length →
    ((∀ p ∈ xs.zip ys, p.1 = p.2) ↔ xs = ys) := by
  intro xs
  induction xs with
  | nil =>
    intro ys h
    cases ys with
    | nil => simp
    | cons y ys => simp at h
  | cons x xs ih =>
    intro ys h
    cases ys with
    | nil => simp at h
    | cons y ys =>
      simp only [List.zip_cons_cons, List.mem_cons, List.cons.injEq]
      constructor
      · intro hall
        have hx : x = y := hall (x, y) (Or.inl rfl)
        have hxs : xs = ys :=
          (ih (by simpa using h)).mp fun p hp => hall p (Or.inr hp)
        exact ⟨hx, hxs⟩
      · rintro ⟨rfl, rfl⟩
        intro p hp
        rcases hp with rfl | hp
        · rfl
        · exact (ih rfl).mpr rfl p hp

theorem ctDifferent_eq_zero {xs ys : List Nat} (h : xs.length = ys.length) :
    (ctDifferent xs ys = 0) ↔ xs = ys := by
  unfold ctDifferent
  rw [fold_or_xor_eq_zero]
  simp only [true_and]
  exact zip_forall_eq h

/-! ## Lemmas: the shape of validate_token -/

theorem validate_token_nil (key user_id action_id : List Nat) (ct? : Option Int) (now : Int) :
    validate_token key [] user_id action_id ct? now = false := rfl

theorem validate_token_none {tok : List Nat} (key user_id action_id : List Nat)
    (ct? : Option Int) (now : Int) (hex : extractTokenTime tok = none) :
    validate_token key tok user_id action_id ct? now = false := by
  by_cases hne : tok = []
  · rw [hne]; rfl
  · unfold validate_token
    rw [if_neg hne, hex]

theorem validate_token_some {tok : List Nat} (key user_id action_id : List Nat) (tt : Int)
    (ct? : Option Int) (now : Int) (hne : tok ≠ [])
    (hex : extractTokenTime tok = some tt) :
    validate_token key tok user_id action_id ct? now =
      (if DEFAULT_TIMEOUT_SECS < ct?.getD now - tt then false
       else if tok.length ≠ (generate_token key user_id action_id (some tt) now).length then
         false
       else if ctDifferent tok (generate_token key user_id action_id (some tt) now) ≠ 0 then
         false
       else true) := by
  unfold validate_token
  rw [if_neg hne, hex]
  cases ct? <;> rfl

theorem validate_true_iff {tok : List Nat} (key user_id action_id : List Nat) (tt : Int)
    (ct? : Option Int) (now : Int) (hne : tok ≠ [])
    (hex : extractTokenTime tok = some tt)
    (hexp : ct?.getD now - tt ≤ DEFAULT_TIMEOUT_SECS) :
    (validate_token key tok user_id action_id ct? now = true ↔
      tok = generate_token key user_id action_id (some tt) now) := by
  rw [validate_token_some key user_id action_id tt ct? now hne hex,
      if_neg (not_lt.mpr hexp)]
  by_cases hL : tok.length = (generate_token key user_id action_id (some tt) now).length
  · rw [if_neg (by simpa using hL)]
    by_cases hd : ctDifferent tok (generate_token key user_id action_id (some tt) now) = 0
    · rw [if_neg (by simpa using hd)]
      simp only [true_iff]
      exact (ctDifferent_eq_zero hL).mp hd
    · rw [if_pos (by simpa using hd)]
      constructor
      · intro hfalse; exact absurd hfalse (by simp)
      · intro heq; exact (hd ((ctDifferent_eq_zero hL).mpr heq)).elim
  · rw [if_pos (by simpa using hL)]
    constructor
    · intro hfalse; exact absurd hfalse (by simp)
    · intro heq; exact (hL (by rw [heq])).elim

theorem validate_genuine (key user_id action_id : List Nat) {w : Int} (c now1 now2 : Int)
    (hw : w ≠ 0) (hc : c - w ≤ DEFAULT_TIMEOUT_SECS) :
    validate_token key (generate_token key user_id action_id (some w) now1)
      user_id action_id (some c) now2 = true := by
  have hg : generate_token key user_id action_id (some w) now1 =
      generate_token key user_id action_id (some w) now2 :=
    generate_token_now_irrel key user_id action_id hw now1 now2
  rw [validate_true_iff key user_id action_id w (some c) now2
      (generate_token_ne_nil key user_id action_id (some w) now1)
      (by rw [extract_generate, effWhen_some hw])
      (by simp only [Option.getD_some]; exact hc)]
  exact hg

theorem validate_expired {tok : List Nat} (key user_id action_id : List Nat) (tt c now : Int)
    (hex : extractTokenTime tok = some tt) (h : DEFAULT_TIMEOUT_SECS < c - tt) :
    validate_token key tok user_id action_id (some c) now = false := by
  by_cases hne : tok = []
  · rw [hne]; rfl
  · rw [validate_token_some key user_id action_id tt (some c) now hne hex,
        if_pos (by simpa using h)]

theorem validate_sound (key tok user_id action_id : List Nat) (ct? : Option Int) (now : Int)
    (h : validate_token key tok user_id action_id ct? now = true) :
    tok ≠ [] ∧ ∃ tt, extractTokenTime tok = some tt ∧
      ct?.getD now - tt ≤ DEFAULT_TIMEOUT_SECS ∧
      tok = generate_token key user_id action_id (some tt) now := by
  by_cases hne : tok = []
  · rw [hne, validate_token_nil] at h
    exact absurd h (by simp)
  · refine ⟨hne, ?_⟩
    rcases hex : extractTokenTime tok with _ | tt
    · rw [validate_token_none key user_id action_id ct? now hex] at h
      exact absurd h (by simp)
    · by_cases hexp : DEFAULT_TIMEOUT_SECS < ct?.getD now - tt
      · rw [validate_token_some key user_id action_id tt ct? now hne hex, if_pos hexp] at h
        exact absurd h (by simp)
      · exact ⟨tt, rfl, by omega,
          (validate_true_iff key user_id action_id tt ct? now hne hex (by omega)).mp h⟩

/-! ## Helper facts shared by the claim theorems -/

theorem envelope_lt {ds : List Nat} (hds : ∀ b ∈ ds, b < 256) (w : Int) :
    ∀ b ∈ ds ++ [DELIMITER] ++ decStr w, b < 256 := by
  intro b hb
  simp only [List.append_assoc, List.mem_append, List.mem_singleton] at hb
  rcases hb with h | rfl | h
  · exact hds b h
  · simp [DELIMITER]
  · exact decStr_lt w b h

theorem timeout_3600 : DEFAULT_TIMEOUT_SECS = 3600 := rfl

/-! ## The claims -/

/-- Claim C1, corrected. The round trip holds for every nonzero
explicitly supplied timestamp: for every key, user and action byte
string, every integer when different from 0 and every clock value,
validating the freshly generated token with current_time = when
returns true. The restriction to nonzero when is forced by the
counterexample below: the line when = when or int(time.time())
treats 0 as absent. -/
theorem xsrfC1_roundtrip (key user_id action_id : List Nat) (w now : Int) (hw : w ≠ 0) :
    validate_token key (generate_token key user_id action_id (some w) now)
      user_id action_id (some w) now = true :=
  validate_genuine key user_id action_id w now now hw
    (by unfold DEFAULT_TIMEOUT_SECS; omega)

/-- Witness for C1 at key "k", user "u", empty action, when 1, clock 0. -/
theorem xsrfC1_roundtrip_witness :
    (1 : Int) ≠ 0 ∧
      validate_token [107] (generate_token [107] [117] [] (some 1) 0)
        [117] [] (some 1) 0 = true :=
  ⟨by decide, xsrfC1_roundtrip [107] [117] [] 1 0 (by decide)⟩

/-- Counterexample to claim C1 as stated: at when = 0 the round trip
fails.  The token generated with when = 0 at clock 0 embeds the clock
value 0; validating it with current_time = 0 at a later clock 5 makes
validate_token regenerate the expected token with its own clock
(token_time 0 is falsy), so the comparison fails and the result is
false, not true. -/
theorem xsrfC1_counterexample :
    validate_token [107] (generate_token [107] [117] [] (some 0) 0)
      [117] [] (some 0) 5 = false := by
  have h0 : extractTokenTime (generate_token [107] [117] [] (some 0) 0) = some 0 := by
    rw [extract_generate]; rfl
  have h5 : extractTokenTime (generate_token [107] [117] [] (some 0) 5) = some 5 := by
    rw [extract_generate]; rfl
  have hne : generate_token [107] [117] [] (some 0) 0 ≠
      generate_token [107] [117] [] (some 0) 5 := by
    intro h
    rw [h, h5] at h0
    exact absurd h0 (by simp)
  have hiff := validate_true_iff [107] [117] [] 0 (some 0) 5
    (generate_token_ne_nil [107] [117] [] (some 0) 0) h0 (by decide)
  cases hv : validate_token [107] (generate_token [107] [117] [] (some 0) 0)
      [117] [] (some 0) 5
  · rfl
  · exact absurd (hiff.mp hv) hne

/-- Claim C2, confirmed. validate_token is a total boolean function in
the embedding (every Python exception path is caught and collapsed),
and it is sound: whenever it returns true the token was nonempty,
decoded to a timestamp within the timeout window, and is byte for byte
the regenerated genuine token.  Contrapositively every malformed or
inconsistent input yields false. -/
theorem xsrfC2_validate_total_sound (key token user_id action_id : List Nat)
    (current_time : Option Int) (now : Int)
    (h : validate_token key token user_id action_id current_time now = true) :
    token ≠ [] ∧ ∃ tt, extractTokenTime token = some tt ∧
      current_time.getD now - tt ≤ DEFAULT_TIMEOUT_SECS ∧
      token = generate_token key user_id action_id (some tt) now :=
  validate_sound key token user_id action_id current_time now h

/-- Witness for C2 at a genuine token. -/
theorem xsrfC2_witness :
    validate_token [107] (generate_token [107] [117] [] (some 1) 0)
        [117] [] (some 1) 0 = true ∧
      (generate_token [107] [117] [] (some 1) 0 ≠ [] ∧
        ∃ tt, extractTokenTime (generate_token [107] [117] [] (some 1) 0) = some tt ∧
          (some (1 : Int)).getD 0 - tt ≤ DEFAULT_TIMEOUT_SECS ∧
          generate_token [107] [117] [] (some 1) 0 =
            generate_token [107] [117] [] (some tt) 0) := by
  have h : validate_token [107] (generate_token [107] [117] [] (some 1) 0)
      [117] [] (some 1) 0 = true := by decide
  exact ⟨h, xsrfC2_validate_total_sound [107] (generate_token [107] [117] [] (some 1) 0)
    [117] [] (some 1) 0 h⟩

/-- Claim C3, corrected. For every nonzero explicitly supplied integer
when, the token embeds exactly that timestamp: the decoded envelope has
the decimal string of when as its final delimiter-separated field, for
every clock value.  The claim fails for when = 0, which the source
treats as unsupplied (see the counterexample). -/
theorem xsrfC3_embeds_when (key user_id action_id : List Nat) (w now : Int) (hw : w ≠ 0) :
    ∃ d, urlsafeB64Decode (generate_token key user_id action_id (some w) now) = some d ∧
      lastField DELIMITER d = decStr w := by
  rw [generate_token_eq, effWhen_some hw]
  refine ⟨_, urlsafeB64_roundtrip (envelope_lt (hmacDigest_lt _) w), ?_⟩
  rw [show hmacDigest (decodedKey key user_id action_id w) ++ [DELIMITER] ++ decStr w =
        hmacDigest (decodedKey key user_id action_id w) ++ DELIMITER :: decStr w by simp]
  exact lastField_append (decStr_no_delim w) _

/-- Witness for C3 at when 1. -/
theorem xsrfC3_witness :
    (1 : Int) ≠ 0 ∧
      ∃ d, urlsafeB64Decode (generate_token [107] [117] [] (some 1) 0) = some d ∧
        lastField DELIMITER d = decStr 1 :=
  ⟨by decide, xsrfC3_embeds_when [107] [117] [] 1 0 (by decide)⟩

/-- Counterexample to claim C3 as stated: with when = 0 supplied
explicitly and the clock at 5, the embedded timestamp is 5, not 0 —
the clock is read even though when was supplied. -/
theorem xsrfC3_counterexample :
    extractTokenTime (generate_token [107] [117] [] (some 0) 5) ≠ some 0 ∧
      extractTokenTime (generate_token [107] [117] [] (some 0) 5) = some 5 := by
  have h5 : extractTokenTime (generate_token [107] [117] [] (some 0) 5) = some 5 := by
    rw [extract_generate]; rfl
  exact ⟨by rw [h5]; simp, h5⟩

/-- Claim C4, corrected. A token generated for one (user_id, action_id)
pair fails validation against a second pair whenever the HMAC digests of
the two canonical messages differ (for any nonzero when).  The claim as
stated, over all distinct pairs, is false: the delimiter is not escaped,
so two distinct pairs that shift a ":" between user_id and action_id
produce the same canonical message and the same token, and validation
succeeds — see the counterexample. -/
theorem xsrfC4_binding (key user_id action_id user_id2 action_id2 : List Nat)
    (w now : Int) (hw : w ≠ 0)
    (hd : hmacDigest (decodedKey key user_id2 action_id2 w) ≠
      hmacDigest (decodedKey key user_id action_id w)) :
    validate_token key (generate_token key user_id action_id (some w) now)
      user_id2 action_id2 (some w) now = false := by
  have hex : extractTokenTime (generate_token key user_id action_id (some w) now) = some w := by
    rw [extract_generate, effWhen_some hw]
  have hiff := validate_true_iff key user_id2 action_id2 w (some w) now
    (generate_token_ne_nil key user_id action_id (some w) now) hex
    (by simp only [Option.getD_some]; unfold DEFAULT_TIMEOUT_SECS; omega)
  have hne : generate_token key user_id action_id (some w) now ≠
      generate_token key user_id2 action_id2 (some w) now := by
    rw [generate_token_eq, generate_token_eq, effWhen_some hw]
    intro h
    have h1 := urlsafeB64Encode_inj (envelope_lt (hmacDigest_lt _) w)
      (envelope_lt (hmacDigest_lt _) w) h
    have h2 : hmacDigest (decodedKey key user_id action_id w) ++ [DELIMITER] =
        hmacDigest (decodedKey key user_id2 action_id2 w) ++ [DELIMITER] :=
      List.append_cancel_right h1
    exact hd (List.append_cancel_right h2).symm
  cases hv : validate_token key (generate_token key user_id action_id (some w) now)
      user_id2 action_id2 (some w) now
  · rfl
  · exact absurd (hiff.mp hv) hne

/-- Witness for C4: the tokens for users "alice" and "bob" under key "k"
at when 1 have different digests, and the alice token fails validation
as bob. -/
theorem xsrfC4_witness :
    hmacDigest (decodedKey [107] [98, 111, 98] [] 1) ≠
        hmacDigest (decodedKey [107] [97, 108, 105, 99, 101] [] 1) ∧
      validate_token [107] (generate_token [107] [97, 108, 105, 99, 101] [] (some 1) 0)
        [98, 111, 98] [] (some 1) 0 = false := by
  have hd : hmacDigest (decodedKey [107] [98, 111, 98] [] 1) ≠
      hmacDigest (decodedKey [107] [97, 108, 105, 99, 101] [] 1) := by decide
  exact ⟨hd, xsrfC4_binding [107] [97, 108, 105, 99, 101] [] [98, 111, 98] [] 1 0
    (by decide) hd⟩

/-- Counterexample to claim C4 as stated: the distinct identity pairs
(user "x:y", action "z") and (user "x", action "y:z") produce the same
canonical message "kx:y:z:1" under key "k", hence the same token, and
the token generated for the first pair validates successfully against
the second pair. -/
theorem xsrfC4_counterexample :
    (([120, 58, 121], [122]) ≠ (([120] : List Nat), ([121, 58, 122] : List Nat))) ∧
      validate_token [107] (generate_token [107] [120, 58, 121] [122] (some 1) 0)
        [120] [121, 58, 122] (some 1) 0 = true := by
  refine ⟨by decide, ?_⟩
  have hkey : decodedKey [107] [120, 58, 121] [122] 1 =
      decodedKey [107] [120] [121, 58, 122] 1 := by decide
  have hgen : generate_token [107] [120, 58, 121] [122] (some 1) 0 =
      generate_token [107] [120] [121, 58, 122] (some 1) 0 := by
    rw [generate_token_eq, generate_token_eq, effWhen_some (by decide : (1:Int) ≠ 0), hkey]
  rw [hgen]
  exact validate_genuine [107] [120] [121, 58, 122] 1 0 0 (by decide)
    (by unfold DEFAULT_TIMEOUT_SECS; omega)

/-- Claim C5, corrected. For every nonzero when, the token is exactly
base64url of the raw HMAC digest of the canonical message, the
delimiter, and the decimal timestamp, where the canonical message is
key, user_id, ":", action_id, ":", decimal timestamp.  At when = 0 the
clock value is embedded instead — see the counterexample. -/
theorem xsrfC5_wire_format (key user_id action_id : List Nat) (w now : Int) (hw : w ≠ 0) :
    generate_token key user_id action_id (some w) now =
      urlsafeB64Encode
        (hmacDigest (key ++ user_id ++ [DELIMITER] ++ action_id ++ [DELIMITER] ++ decStr w)
          ++ [DELIMITER] ++ decStr w) := by
  rw [generate_token_eq, effWhen_some hw]
  rfl

/-- Witness for C5 at key "k", user "u", when 1. -/
theorem xsrfC5_witness :
    (1 : Int) ≠ 0 ∧
      generate_token [107] [117] [] (some 1) 0 =
        urlsafeB64Encode
          (hmacDigest ([107] ++ [117] ++ [DELIMITER] ++ [] ++ [DELIMITER] ++ decStr 1)
            ++ [DELIMITER] ++ decStr 1) :=
  ⟨by decide, xsrfC5_wire_format [107] [117] [] 1 0 (by decide)⟩

/-- Counterexample to claim C5 as stated: with when = 0 supplied and the
clock at 5, the produced token differs from the claimed formula at
when = 0 (it embeds the clock value 5 in place of 0). -/
theorem xsrfC5_counterexample :
    generate_token [107] [117] [] (some 0) 5 ≠
      urlsafeB64Encode
        (hmacDigest ([107] ++ [117] ++ [DELIMITER] ++ [] ++ [DELIMITER] ++ decStr 0)
          ++ [DELIMITER] ++ decStr 0) := by
  intro h
  have h1 : extractTokenTime (generate_token [107] [117] [] (some 0) 5) = some 5 := by
    rw [extract_generate]; rfl
  have h2 : extractTokenTime (urlsafeB64Encode
      (hmacDigest ([107] ++ [117] ++ [DELIMITER] ++ [] ++ [DELIMITER] ++ decStr 0)
        ++ [DELIMITER] ++ decStr 0)) = some 0 :=
    extract_envelope (hmacDigest_lt _) 0
  rw [h, h2] at h1
  exact absurd h1 (by simp)

/-- Claim C6, corrected. For every nonzero when, validation of the
genuine token at current_time = when + 3600 returns true and at
current_time = when + 3601 returns false: rejection happens exactly when
current_time - token_time exceeds 3600.  At when = 0 the claim fails —
see the counterexample. -/
theorem xsrfC6_expiry_boundary (key user_id action_id : List Nat) (w now : Int)
    (hw : w ≠ 0) :
    validate_token key (generate_token key user_id action_id (some w) now)
        user_id action_id (some (w + 3600)) now = true ∧
      validate_token key (generate_token key user_id action_id (some w) now)
        user_id action_id (some (w + 3601)) now = false := by
  constructor
  · exact validate_genuine key user_id action_id (w + 3600) now now hw
      (by unfold DEFAULT_TIMEOUT_SECS; omega)
  · refine validate_expired key user_id action_id w (w + 3601) now ?_ ?_
    · rw [extract_generate, effWhen_some hw]
    · unfold DEFAULT_TIMEOUT_SECS; omega

/-- Witness for C6 at when 1. -/
theorem xsrfC6_witness :
    (1 : Int) ≠ 0 ∧
      validate_token [107] (generate_token [107] [117] [] (some 1) 0)
          [117] [] (some (1 + 3600)) 0 = true ∧
      validate_token [107] (generate_token [107] [117] [] (some 1) 0)
          [117] [] (some (1 + 3601)) 0 = false := by
  have h := xsrfC6_expiry_boundary [107] [117] [] 1 0 (by decide)
  exact ⟨by decide, h.1, h.2⟩

/-- Counterexample to claim C6 as stated: with when = 0 supplied and the
clock at 5, the token embeds 5, so validating at
current_time = 0 + 3601 is within the window of the embedded timestamp
and returns true, where the claim requires false. -/
theorem xsrfC6_counterexample :
    validate_token [107] (generate_token [107] [117] [] (some 0) 5)
      [117] [] (some (0 + 3601)) 5 = true := by
  have hgen : generate_token [107] [117] [] (some 0) 5 =
      generate_token [107] [117] [] (some 5) 5 := rfl
  rw [hgen]
  exact validate_genuine [107] [117] [] (0 + 3601) 5 5 (by decide)
    (by unfold DEFAULT_TIMEOUT_SECS; omega)

/-- Claim C7, corrected. A genuine token with a nonzero embedded
timestamp t is accepted whenever current_time - t is at most 3600, with
no lower bound on that age: in particular future dated tokens
(t greater than current_time) validate successfully, for any generation
and validation clocks.  The nonzero restriction is forced by the
counterexample below. -/
theorem xsrfC7_future_dated (key user_id action_id : List Nat) (t c now1 now2 : Int)
    (ht : t ≠ 0) (hc : c - t ≤ DEFAULT_TIMEOUT_SECS) :
    validate_token key (generate_token key user_id action_id (some t) now1)
      user_id action_id (some c) now2 = true :=
  validate_genuine key user_id action_id c now1 now2 ht hc

/-- Witness for C7 with a future dated token: embedded timestamp 100,
current_time 50. -/
theorem xsrfC7_witness :
    (100 : Int) ≠ 0 ∧ (50 : Int) - 100 ≤ DEFAULT_TIMEOUT_SECS ∧
      validate_token [107] (generate_token [107] [117] [] (some 100) 0)
        [117] [] (some 50) 0 = true :=
  ⟨by decide, by decide, xsrfC7_future_dated [107] [117] [] 100 50 0 0 (by decide) (by decide)⟩

/-- Counterexample to claim C7 as stated: the genuine token generated
with when omitted at clock 0 embeds timestamp 0 and satisfies
current_time - token_time = 0 at current_time 0, yet validation at a
later clock 7 returns false, because the falsy embedded timestamp makes
the regeneration read the new clock. -/
theorem xsrfC7_counterexample :
    extractTokenTime (generate_token [107] [117] [] none 0) = some 0 ∧
      (0 : Int) - 0 ≤ DEFAULT_TIMEOUT_SECS ∧
      validate_token [107] (generate_token [107] [117] [] none 0)
        [117] [] (some 0) 7 = false := by
  have hex : extractTokenTime (generate_token [107] [117] [] none 0) = some 0 := by
    rw [extract_generate]; rfl
  refine ⟨hex, by decide, ?_⟩
  have hiff := validate_true_iff [107] [117] [] 0 (some 0) 7
    (generate_token_ne_nil [107] [117] [] none 0) hex (by decide)
  have hne : generate_token [107] [117] [] none 0 ≠
      generate_token [107] [117] [] (some 0) 7 := by
    intro h
    have h7 : extractTokenTime (generate_token [107] [117] [] (some 0) 7) = some 7 := by
      rw [extract_generate]; rfl
    rw [h, h7] at hex
    exact absurd hex (by simp)
  cases hv : validate_token [107] (generate_token [107] [117] [] none 0)
      [117] [] (some 0) 7
  · rfl
  · exact absurd (hiff.mp hv) hne

/-- Claim C8, confirmed. Malformed token robustness: for every key,
user and action, an empty token, a token that does not base64url
decode, and a token that decodes but whose final delimiter-separated
field does not parse as an integer, all make validate_token return
false (the embedding is total, so no exception can escape). -/
theorem xsrfC8_malformed (key user_id action_id : List Nat) (ct : Option Int) (now : Int) :
    validate_token key [] user_id action_id ct now = false ∧
      (∀ token, urlsafeB64Decode token = none →
        validate_token key token user_id action_id ct now = false) ∧
      (∀ token decoded, urlsafeB64Decode token = some decoded →
        pyInt (lastField DELIMITER decoded) = none →
        validate_token key token user_id action_id ct now = false) := by
  refine ⟨validate_token_nil key user_id action_id ct now, ?_, ?_⟩
  · intro token h
    refine validate_token_none key user_id action_id ct now ?_
    unfold extractTokenTime
    rw [h]
  · intro token decoded h1 h2
    refine validate_token_none key user_id action_id ct now ?_
    unfold extractTokenTime
    rw [h1]
    exact h2

/-- Witness for C8: the empty token, the token "not-base64!!" (bytes
that do not decode), and base64url("garbage") (decodes to "garbage",
whose final field is not an integer), each rejected with false. -/
theorem xsrfC8_witness :
    validate_token [107] [] [117] [] (some 0) 0 = false ∧
      validate_token [107] [110, 111, 116, 45, 98, 97, 115, 101, 54, 52, 33, 33]
        [117] [] (some 0) 0 = false ∧
      validate_token [107] (urlsafeB64Encode [103, 97, 114, 98, 97, 103, 101])
        [117] [] (some 0) 0 = false := by
  have h := xsrfC8_malformed [107] [117] [] (some 0) 0
  exact ⟨h.1,
    h.2.1 [110, 111, 116, 45, 98, 97, 115, 101, 54, 52, 33, 33] (by decide),
    h.2.2 (urlsafeB64Encode [103, 97, 114, 98, 97, 103, 101])
      [103, 97, 114, 98, 97, 103, 101] (by decide) (by decide)⟩

/-- Claim C9, confirmed. When validate_token reaches the comparison
phase (nonempty token, timestamp extracted, not expired), it returns
true exactly when the presented token equals the regenerated expected
token byte for byte — the accumulated bitwise or of xors over the
zipped bytes is zero exactly on equality (ctDifferent_eq_zero) — and a
length mismatch forces false. -/
theorem xsrfC9_comparison (key token user_id action_id : List Nat) (tt c now : Int)
    (hne : token ≠ []) (hex : extractTokenTime token = some tt)
    (hexp : c - tt ≤ DEFAULT_TIMEOUT_SECS) :
    (validate_token key token user_id action_id (some c) now = true ↔
        token = generate_token key user_id action_id (some tt) now) ∧
      (token.length ≠ (generate_token key user_id action_id (some tt) now).length →
        validate_token key token user_id action_id (some c) now = false) := by
  have hiff := validate_true_iff key user_id action_id tt (some c) now hne hex
    (by simp only [Option.getD_some]; exact hexp)
  refine ⟨hiff, ?_⟩
  intro hL
  cases hv : validate_token key token user_id action_id (some c) now
  · rfl
  · exact absurd (congrArg List.length (hiff.mp hv)) hL

/-- Witness for C9 at the genuine token for key "k", user "u", when 1:
the comparison phase is reached and the equivalence holds there. -/
theorem xsrfC9_witness :
    (validate_token [107] (generate_token [107] [117] [] (some 1) 0)
          [117] [] (some 1) 0 = true ↔
        generate_token [107] [117] [] (some 1) 0 =
          generate_token [107] [117] [] (some 1) 0) ∧
      ((generate_token [107] [117] [] (some 1) 0).length ≠
          (generate_token [107] [117] [] (some 1) 0).length →
        validate_token [107] (generate_token [107] [117] [] (some 1) 0)
          [117] [] (some 1) 0 = false) :=
  xsrfC9_comparison [107] (generate_token [107] [117] [] (some 1) 0) [117] [] 1 1 0
    (generate_token_ne_nil [107] [117] [] (some 1) 0)
    (by rw [extract_generate]; rfl) (by decide)

/-- Claim C10, confirmed. generate_token is deterministic for a truthy
(nonzero) explicitly supplied when: the token does not depend on the
clock, so identical inputs always reissue the identical token and there
is no nonce or randomness. -/
theorem xsrfC10_deterministic (key user_id action_id : List Nat) (w now1 now2 : Int)
    (hw : w ≠ 0) :
    generate_token key user_id action_id (some w) now1 =
      generate_token key user_id action_id (some w) now2 :=
  generate_token_now_irrel key user_id action_id hw now1 now2

/-- Witness for C10 at when 1 under clocks 0 and 99. -/
theorem xsrfC10_witness :
    (1 : Int) ≠ 0 ∧
      generate_token [107] [117] [] (some 1) 0 = generate_token [107] [117] [] (some 1) 99 :=
  ⟨by decide, xsrfC10_deterministic [107] [117] [] 1 0 99 (by decide)⟩
